import Mathlib

/-!
# Verification of the corn hedging tracker core

Shallow embedding of the core of `corn-hedging-tracker.jsx` and of the
Firebase sync hook `useFirebaseState` (`src/main.jsx`), together with
theorems settling the frozen behavioural claims about them.

Conventions of the embedding:
* JavaScript objects are modelled as ordered association lists with unique
  keys (`Obj`): `{...prev, [k]: v}` replaces the value in place when the key
  exists and appends it otherwise, `delete o[k]` removes the key, and
  `Object.entries` is the list itself in insertion order.
* Machine numbers holding bushel quantities are modelled as `Int` (they are
  integers produced by `parseInt`); the hedge-ratio percentages, produced by
  real division, are modelled as `Rat`.
* Nondeterministic collaborators (generated ids, the wall clock, the
  `confirm` dialog) are passed in as explicit arguments.
-/

namespace Hedging

/-- JS object modelled as an ordered association list (unique keys). -/
abbrev Obj (κ : Type) (β : Type) := List (κ × β)

/-- Property read `o[k]`: the value at key `k`, if present. -/
def getKey? [DecidableEq κ] : Obj κ β → κ → Option β
  | [], _ => none
  | p :: rest, k => if p.1 = k then some p.2 else getKey? rest k

/-- Spread update `{...o, [k]: v}`: replaces the value in place when `k`
exists, appends `(k, v)` otherwise. -/
def setKey [DecidableEq κ] (o : Obj κ β) (k : κ) (v : β) : Obj κ β :=
  if o.any (fun p => decide (p.1 = k)) then
    o.map (fun p => if p.1 = k then (k, v) else p)
  else o ++ [(k, v)]

/-- `delete o[k]`: removes the key, leaving every other entry in place. -/
def delKey [DecidableEq κ] (o : Obj κ β) (k : κ) : Obj κ β :=
  o.filter (fun p => decide (p.1 ≠ k))

/-! Basic lookup lemmas about the object operations. -/

theorem getKey?_append [DecidableEq κ] (o₁ o₂ : Obj κ β) (k : κ) :
    getKey? (o₁ ++ o₂) k = ((getKey? o₁ k).rec (getKey? o₂ k) (fun v => some v)) := by
  induction o₁ with
  | nil => simp [getKey?]
  | cons p rest ih =>
      by_cases h : p.1 = k <;> simp [getKey?, h, ih]

theorem getKey?_eq_none_of_not_mem [DecidableEq κ] (o : Obj κ β) (k : κ)
    (h : o.any (fun p => decide (p.1 = k)) = false) : getKey? o k = none := by
  induction o with
  | nil => rfl
  | cons p rest ih =>
      simp only [List.any_cons, Bool.or_eq_false_iff, decide_eq_false_iff_not] at h
      simp [getKey?, h.1, ih h.2]

theorem getKey?_map_replace [DecidableEq κ] (o : Obj κ β) (k k' : κ) (v : β)
    (hne : k' ≠ k) :
    getKey? (o.map (fun p => if p.1 = k then (k, v) else p)) k' = getKey? o k' := by
  induction o with
  | nil => rfl
  | cons p rest ih =>
      by_cases h : p.1 = k
      · have hk : ¬ (k = k') := fun hc => hne hc.symm
        have hp : ¬ (p.1 = k') := fun hc => hne (hc.symm.trans h)
        simp [getKey?, h, hk, hp, ih]
      · by_cases h' : p.1 = k'
        · simp [getKey?, h, h', hne]
        · simp [getKey?, h, h', ih]

theorem getKey?_setKey_self [DecidableEq κ] (o : Obj κ β) (k : κ) (v : β) :
    getKey? (setKey o k v) k = some v := by
  unfold setKey
  by_cases hmem : o.any (fun p => decide (p.1 = k)) = true
  · simp only [hmem, if_true]
    induction o with
    | nil => simp at hmem
    | cons p rest ih =>
        by_cases h : p.1 = k
        · simp [getKey?, h]
        · simp only [List.any_cons, Bool.or_eq_true, decide_eq_true_eq] at hmem
          rcases hmem with h' | hmem
          · exact absurd h' h
          · simp [getKey?, h, ih hmem]
  · simp only [Bool.not_eq_true] at hmem
    simp only [hmem, Bool.false_eq_true, if_false]
    rw [getKey?_append, getKey?_eq_none_of_not_mem o k hmem]
    simp [getKey?]

theorem getKey?_setKey_ne [DecidableEq κ] (o : Obj κ β) (k k' : κ) (v : β)
    (hne : k' ≠ k) : getKey? (setKey o k v) k' = getKey? o k' := by
  unfold setKey
  by_cases hmem : o.any (fun p => decide (p.1 = k)) = true
  · simp only [hmem, if_true]
    exact getKey?_map_replace o k k' v hne
  · simp only [Bool.not_eq_true] at hmem
    simp only [hmem, Bool.false_eq_true, if_false]
    rw [getKey?_append]
    cases hk : getKey? o k' with
    | some v' => simp
    | none =>
        have : ¬ (k = k') := fun hc => hne hc.symm
        simp [getKey?, this]

theorem getKey?_delKey_self [DecidableEq κ] (o : Obj κ β) (k : κ) :
    getKey? (delKey o k) k = none := by
  induction o with
  | nil => rfl
  | cons p rest ih =>
      by_cases h : p.1 = k
      · simpa [delKey, List.filter_cons, decide_not, h] using ih
      · simp only [delKey, List.filter_cons, decide_not] at ih ⊢
        simp [getKey?, h, ih]

theorem getKey?_delKey_ne [DecidableEq κ] (o : Obj κ β) (k k' : κ)
    (hne : k' ≠ k) : getKey? (delKey o k) k' = getKey? o k' := by
  induction o with
  | nil => rfl
  | cons p rest ih =>
      by_cases h : p.1 = k
      · have hp : ¬ (p.1 = k') := fun hc => hne (hc.symm.trans h)
        have hk : ¬ (k = k') := fun hc => hne hc.symm
        simp only [delKey, List.filter_cons, decide_not] at ih ⊢
        simp [getKey?, h, hp, hk, ih]
      · simp only [delKey, List.filter_cons, decide_not] at ih ⊢
        by_cases h' : p.1 = k'
        · simp [getKey?, h, h', hne]
        · simp [getKey?, h, h', ih]

/-! ## Domain data model (from `corn-hedging-tracker.jsx`) -/

/-- The fixed entity enumeration `ENTITIES` (source line 30). -/
inductive Entity where
  | hogFinishing
  | feedlot
  | farming
deriving DecidableEq, Repr

/-- The entity's display string, as used for object keys and audit entries. -/
def Entity.name : Entity → String
  | .hogFinishing => "Hog Finishing"
  | .feedlot => "Feedlot"
  | .farming => "Farming"

/-- The `DIRECTIONS` enumeration (source line 33). -/
inductive Direction where
  | long
  | short
deriving DecidableEq, Repr

/-- A stored hedge record: the value kept at one key of the `hedges` object.
`saveHedge` strips the `id` field before storing, so the stored value carries
no id (the id is the object key).  The `price` field is produced by
`parseFloat` in the source; floating-point parsing is not modelled, so the
field keeps the raw non-empty input string (`none` models JS `null` for an
empty price input).  No claim under verification depends on the price value. -/
structure HedgeRecord where
  entity : Entity
  cropYear : String
  contractType : String
  contractMonth : String
  quantity : Int
  direction : Direction
  price : Option String
  dateEntered : String
  notes : String
deriving DecidableEq, Repr

/-- An audit-log entry as built by `createAuditEntry` (source lines 87-94);
the generated id and the wall-clock timestamp are passed in explicitly. -/
structure AuditEntry where
  id : String
  timestamp : String
  user : String
  action : String
  entity : String
  details : String
deriving DecidableEq, Repr

/-- `createAuditEntry(action, entity, details)`, with the generated id and
timestamp supplied by the caller. -/
def createAuditEntry (id timestamp action entity details : String) : AuditEntry :=
  { id := id, timestamp := timestamp, user := "Current User",
    action := action, entity := entity, details := details }

/-- `consumption`: Entity → CropYear → bushels. -/
abbrev Consumption := Obj Entity (Obj String Int)

/-- `production`: CropYear → CornType → bushels. -/
abbrev Production := Obj String (Obj String Int)

/-- The read `(m?.[k1]?.[k2]) || 0` used by `calc` for consumption values:
missing keys and a stored zero both give `0`; any other stored value is
returned as is. -/
def lookup2D [DecidableEq κ] (m : Obj κ (Obj String Int)) (k : κ) (y : String) : Int :=
  ((getKey? m k).bind (fun inner => getKey? inner y)).getD 0

/-! ## The exposure calculator `calc` (source lines 279-326) -/

/-- Signed quantity of one hedge record, as summed by `hedgeByEntity`:
`+quantity` for `Long`, `-quantity` otherwise. -/
def signedQty (h : HedgeRecord) : Int :=
  if h.direction = Direction.long then h.quantity else -h.quantity

/-- `hedgeByEntity(entity)` from `calc`: over the already year-filtered
records, sum the signed quantities of the records of the given entity. -/
def hedgeByEntity (yearHedges : List HedgeRecord) (e : Entity) : Int :=
  (yearHedges.filter (fun h => decide (h.entity = e))).foldl
    (fun sum h => sum + signedQty h) 0

/-- The record of derived analytics returned by `calc`.  Percentages are
produced by real division in the source and are modelled as rationals. -/
structure CalcResult where
  hogCons : Int
  feedCons : Int
  totalCons : Int
  totalProd : Int
  netCash : Int
  hogHedge : Int
  feedHedge : Int
  farmHedge : Int
  totalHedge : Int
  hogNetCash : Int
  feedNetCash : Int
  farmNetCash : Int
  hogNet : Int
  feedNet : Int
  farmNet : Int
  netPosition : Int
  hogHedgePct : Rat
  feedHedgePct : Rat
  farmHedgePct : Rat
  yearHedges : List HedgeRecord
  prod : Obj String Int
deriving DecidableEq, Repr

/-- The exposure calculation of source lines 279-326, for the selected year
`y`, over the current consumption, production and hedge-array snapshot. -/
def calcExposure (consumption : Consumption) (production : Production)
    (hedges : List HedgeRecord) (y : String) : CalcResult :=
  let hogCons := lookup2D consumption Entity.hogFinishing y
  let feedCons := lookup2D consumption Entity.feedlot y
  let totalCons := hogCons + feedCons
  let prod := (getKey? production y).getD []
  let totalProd := prod.foldl (fun s p => s + p.2) 0
  let netCash := totalProd - totalCons
  let yearHedges := hedges.filter (fun h => decide (h.cropYear = y))
  let hogHedge := hedgeByEntity yearHedges Entity.hogFinishing
  let feedHedge := hedgeByEntity yearHedges Entity.feedlot
  let farmHedge := hedgeByEntity yearHedges Entity.farming
  let totalHedge := hogHedge + feedHedge + farmHedge
  let hogNetCash := -hogCons
  let feedNetCash := -feedCons
  let farmNetCash := totalProd
  let hogNet := hogNetCash + hogHedge
  let feedNet := feedNetCash + feedHedge
  let farmNet := farmNetCash + farmHedge
  let netPosition := netCash + totalHedge
  let hogHedgePct : Rat := if 0 < hogCons then |(hogHedge : Rat)| / (hogCons : Rat) * 100 else 0
  let feedHedgePct : Rat := if 0 < feedCons then |(feedHedge : Rat)| / (feedCons : Rat) * 100 else 0
  let farmHedgePct : Rat := if 0 < totalProd then |(farmHedge : Rat)| / (totalProd : Rat) * 100 else 0
  { hogCons := hogCons, feedCons := feedCons, totalCons := totalCons,
    totalProd := totalProd, netCash := netCash,
    hogHedge := hogHedge, feedHedge := feedHedge, farmHedge := farmHedge,
    totalHedge := totalHedge,
    hogNetCash := hogNetCash, feedNetCash := feedNetCash, farmNetCash := farmNetCash,
    hogNet := hogNet, feedNet := feedNet, farmNet := farmNet,
    netPosition := netPosition,
    hogHedgePct := hogHedgePct, feedHedgePct := feedHedgePct, farmHedgePct := farmHedgePct,
    yearHedges := yearHedges, prod := prod }

/-- The per-entity hedge-position formula as the spec words it: the sum,
over ledger records whose `cropYear` is `y` and whose `entity` is `e`, of
`quantity` for `Long` records and `-quantity` for `Short` records.  Stated
from the spec for comparison with the source-side `hedgeByEntity`. -/
def specEntityHedge (ledger : List HedgeRecord) (y : String) (e : Entity) : Int :=
  ((ledger.filter (fun h => decide (h.cropYear = y ∧ h.entity = e))).map signedQty).sum

theorem foldl_add_signedQty (l : List HedgeRecord) (a : Int) :
    l.foldl (fun sum h => sum + signedQty h) a = a + (l.map signedQty).sum := by
  induction l generalizing a with
  | nil => simp
  | cons h t ih => simp [List.foldl_cons, ih, add_assoc]

theorem hedgeByEntity_eq_specEntityHedge (hedges : List HedgeRecord)
    (y : String) (e : Entity) :
    hedgeByEntity (hedges.filter (fun h => decide (h.cropYear = y))) e =
      specEntityHedge hedges y e := by
  unfold hedgeByEntity specEntityHedge
  rw [foldl_add_signedQty, zero_add, List.filter_filter]
  congr 2
  apply List.filter_congr
  intro h _
  simp [Bool.and_comm]

/-- C1: on the snapshot with Hog Finishing consumption 2,600,000 for 2025,
no Feedlot consumption, production {2025: {Dry Corn: 3,000,000}} and an
empty ledger, the exposure calculation for 2025 yields
`totalCons = 2600000`, `totalProd = 3000000`, `netCash = 400000`,
`hogNet = -2600000`, `farmNet = 3000000` and `netPosition = 400000`. -/
theorem calc_example_scenario_2025 :
    (calcExposure [(Entity.hogFinishing, [("2025", 2600000)])]
        [("2025", [("Dry Corn", 3000000)])] [] "2025").totalCons = 2600000 ∧
    (calcExposure [(Entity.hogFinishing, [("2025", 2600000)])]
        [("2025", [("Dry Corn", 3000000)])] [] "2025").totalProd = 3000000 ∧
    (calcExposure [(Entity.hogFinishing, [("2025", 2600000)])]
        [("2025", [("Dry Corn", 3000000)])] [] "2025").netCash = 400000 ∧
    (calcExposure [(Entity.hogFinishing, [("2025", 2600000)])]
        [("2025", [("Dry Corn", 3000000)])] [] "2025").hogNet = -2600000 ∧
    (calcExposure [(Entity.hogFinishing, [("2025", 2600000)])]
        [("2025", [("Dry Corn", 3000000)])] [] "2025").farmNet = 3000000 ∧
    (calcExposure [(Entity.hogFinishing, [("2025", 2600000)])]
        [("2025", [("Dry Corn", 3000000)])] [] "2025").netPosition = 400000 := by
  refine ⟨?_, ?_, ?_, ?_, ?_, ?_⟩ <;> decide

/-- C2: the per-entity hedge position computed by `calc` is, for every
snapshot and year, the signed sum over the ledger records of that year and
entity (`+quantity` for `Long`, `-quantity` for `Short`); in particular a
single Farming Short record of 600,000 for 2025 gives `farmHedge = -600000`
and, with production 3,000,000, `farmNet = 2400000`. -/
theorem calc_entity_hedge_signed_sum :
    (∀ (consumption : Consumption) (production : Production)
        (hedges : List HedgeRecord) (y : String),
      (calcExposure consumption production hedges y).hogHedge
          = specEntityHedge hedges y Entity.hogFinishing ∧
      (calcExposure consumption production hedges y).feedHedge
          = specEntityHedge hedges y Entity.feedlot ∧
      (calcExposure consumption production hedges y).farmHedge
          = specEntityHedge hedges y Entity.farming) ∧
    (calcExposure [(Entity.hogFinishing, [("2025", 2600000)])]
        [("2025", [("Dry Corn", 3000000)])]
        [{ entity := Entity.farming, cropYear := "2025", contractType := "Futures",
           contractMonth := "Dec", quantity := 600000, direction := Direction.short,
           price := some "5.05", dateEntered := "2025-01-10", notes := "Harvest hedge" }]
        "2025").farmHedge = -600000 ∧
    (calcExposure [(Entity.hogFinishing, [("2025", 2600000)])]
        [("2025", [("Dry Corn", 3000000)])]
        [{ entity := Entity.farming, cropYear := "2025", contractType := "Futures",
           contractMonth := "Dec", quantity := 600000, direction := Direction.short,
           price := some "5.05", dateEntered := "2025-01-10", notes := "Harvest hedge" }]
        "2025").farmNet = 2400000 := by
  refine ⟨?_, by decide, by decide⟩
  intro consumption production hedges y
  refine ⟨?_, ?_, ?_⟩ <;>
    simpa [calcExposure] using hedgeByEntity_eq_specEntityHedge hedges y _

/-- C3: whenever an entity's physical magnitude is zero (zero consumption
for a consumer, zero total production for the producer), its hedge coverage
ratio is exactly 0, whatever the hedge quantities are. -/
theorem hedge_ratio_zero_magnitude (consumption : Consumption)
    (production : Production) (hedges : List HedgeRecord) (y : String) :
    ((calcExposure consumption production hedges y).hogCons = 0 →
      (calcExposure consumption production hedges y).hogHedgePct = 0) ∧
    ((calcExposure consumption production hedges y).feedCons = 0 →
      (calcExposure consumption production hedges y).feedHedgePct = 0) ∧
    ((calcExposure consumption production hedges y).totalProd = 0 →
      (calcExposure consumption production hedges y).farmHedgePct = 0) := by
  refine ⟨fun h => ?_, fun h => ?_, fun h => ?_⟩ <;>
    · simp only [calcExposure] at h ⊢
      simp [h]

/-- Witness for C3 at a concrete snapshot: empty consumption and production
but a nonzero 2025 hedge; all three magnitudes are 0 and all three ratios
evaluate to 0. -/
theorem hedge_ratio_zero_magnitude_witness :
    (calcExposure [] []
        [{ entity := Entity.hogFinishing, cropYear := "2025", contractType := "Futures",
           contractMonth := "Jul", quantity := 500000, direction := Direction.long,
           price := none, dateEntered := "2025-01-15", notes := "" }] "2025").hogHedgePct = 0 ∧
    (calcExposure [] []
        [{ entity := Entity.hogFinishing, cropYear := "2025", contractType := "Futures",
           contractMonth := "Jul", quantity := 500000, direction := Direction.long,
           price := none, dateEntered := "2025-01-15", notes := "" }] "2025").feedHedgePct = 0 ∧
    (calcExposure [] []
        [{ entity := Entity.hogFinishing, cropYear := "2025", contractType := "Futures",
           contractMonth := "Jul", quantity := 500000, direction := Direction.long,
           price := none, dateEntered := "2025-01-15", notes := "" }] "2025").farmHedgePct = 0 := by
  have h := hedge_ratio_zero_magnitude [] []
    [{ entity := Entity.hogFinishing, cropYear := "2025", contractType := "Futures",
       contractMonth := "Jul", quantity := 500000, direction := Direction.long,
       price := none, dateEntered := "2025-01-15", notes := "" }] "2025"
  exact ⟨h.1 (by decide), h.2.1 (by decide), h.2.2 (by decide)⟩

/-! ## The sync hook `useFirebaseState` (`src/main.jsx`)

`setAndSync` (source lines 49-66): every mutate call computes
`next = updater(prev)` and updates the local value; with `debounce > 0` it
cancels the single pending timer (`clearTimeout(timerRef.current)`) and
schedules a fresh one that will write `next` after `debounce` ms, otherwise
it writes immediately.  Time is modelled explicitly: the state carries the
at-most-one pending timer as `Option (fire time × payload)`, and the list of
backend `set` calls that have been issued, in order. -/

/-- State of one synced collection's write path: the local cached value, the
single pending debounce timer (fire time and the value it would write), and
the backend writes issued so far. -/
structure SyncState (α : Type) where
  value : α
  timer : Option (Nat × α)
  writes : List α
deriving Repr

/-- The runtime firing a due timer at time `now`: the pending payload is
written to the backend and the timer slot is cleared. -/
def fireIfDue (now : Nat) (s : SyncState α) : SyncState α :=
  match s.timer with
  | some (t, v) => if t ≤ now then { s with timer := none, writes := s.writes ++ [v] } else s
  | none => s

/-- One `setAndSync(updater)` call arriving at time `now`: any timer that is
already due fires first; then `next = updater(value)` updates the local
value, and either a fresh timer replaces the pending one (debounce > 0) or
the write is issued immediately (debounce = 0). -/
def mutateAt (debounce : Nat) (now : Nat) (updater : α → α) (s : SyncState α) : SyncState α :=
  let s := fireIfDue now s
  let next := updater s.value
  if 0 < debounce then
    { s with value := next, timer := some (now + debounce, next) }
  else
    { s with value := next, writes := s.writes ++ [next] }

/-- A burst: the mutate calls of `events` (arrival time, updater) applied in
order. -/
def runBurst (debounce : Nat) (events : List (Nat × (α → α))) (s : SyncState α) : SyncState α :=
  events.foldl (fun s e => mutateAt debounce e.1 e.2 s) s

/-- The value after applying the updaters of `events` in order. -/
def applyAll (events : List (Nat × (α → α))) (v : α) : α :=
  events.foldl (fun v e => e.2 v) v

/-- Every event of the list arrives strictly before the debounce window
opened at `tprev` elapses, and likewise for each consecutive pair. -/
def chainFrom (debounce tprev : Nat) : List (Nat × (α → α)) → Bool
  | [] => true
  | e :: rest => decide (e.1 < tprev + debounce) && chainFrom debounce e.1 rest

/-- Arrival time of the last event, `tprev` if there is none. -/
def lastTime (tprev : Nat) (events : List (Nat × (α → α))) : Nat :=
  events.foldl (fun _ e => e.1) tprev

theorem runBurst_pending (debounce : Nat) (hd : 0 < debounce) :
    ∀ (events : List (Nat × (α → α))) (tprev : Nat) (s : SyncState α),
      s.timer = some (tprev + debounce, s.value) →
      chainFrom debounce tprev events = true →
      runBurst debounce events s =
        { value := applyAll events s.value,
          timer := some (lastTime tprev events + debounce, applyAll events s.value),
          writes := s.writes } := by
  intro events
  induction events with
  | nil =>
      intro tprev s htimer _
      simp [runBurst, applyAll, lastTime, ← htimer]
  | cons e rest ih =>
      intro tprev s htimer hchain
      simp only [chainFrom, Bool.and_eq_true, decide_eq_true_eq] at hchain
      have hfire : fireIfDue e.1 s = s := by
        simp [fireIfDue, htimer, Nat.not_le.mpr hchain.1]
      have hstep : mutateAt debounce e.1 e.2 s =
          { value := e.2 s.value, timer := some (e.1 + debounce, e.2 s.value),
            writes := s.writes } := by
        simp [mutateAt, hfire, hd]
      have := ih e.1
        { value := e.2 s.value, timer := some (e.1 + debounce, e.2 s.value),
          writes := s.writes } rfl hchain.2
      simp only [runBurst, List.foldl_cons] at this ⊢
      rw [hstep, this]
      simp [applyAll, lastTime]

/-- C4: with `debounceMs > 0`, a burst of `N ≥ 1` mutate calls in which each
call arrives within the debounce window restarted by the previous one, and
that starts with no pending timer, issues exactly one backend write once the
final window elapses — and that write carries the value produced by the
last (Nth) call; throughout, at most one pending write exists (the state
after the burst holds exactly the one timer for the final value). -/
theorem debounce_coalesces_burst (debounce : Nat) (hd : 0 < debounce)
    (e : Nat × (α → α)) (rest : List (Nat × (α → α)))
    (hchain : chainFrom debounce e.1 rest = true)
    (s : SyncState α) (hstart : s.timer = none)
    (T : Nat) (hT : lastTime e.1 rest + debounce ≤ T) :
    (fireIfDue T (runBurst debounce (e :: rest) s)).writes
        = s.writes ++ [applyAll (e :: rest) s.value] ∧
    (runBurst debounce (e :: rest) s).timer
        = some (lastTime e.1 rest + debounce, applyAll (e :: rest) s.value) ∧
    (fireIfDue T (runBurst debounce (e :: rest) s)).timer = none := by
  have hfire : fireIfDue e.1 s = s := by simp [fireIfDue, hstart]
  have hstep : mutateAt debounce e.1 e.2 s =
      { value := e.2 s.value, timer := some (e.1 + debounce, e.2 s.value),
        writes := s.writes } := by
    simp [mutateAt, hfire, hd]
  have hrun : runBurst debounce (e :: rest) s =
      { value := applyAll rest (e.2 s.value),
        timer := some (lastTime e.1 rest + debounce, applyAll rest (e.2 s.value)),
        writes := s.writes } := by
    have := runBurst_pending debounce hd rest e.1
      { value := e.2 s.value, timer := some (e.1 + debounce, e.2 s.value),
        writes := s.writes } rfl hchain
    simp only [runBurst, List.foldl_cons] at this ⊢
    rw [hstep, this]
  rw [hrun]
  refine ⟨?_, ?_, ?_⟩ <;> simp [fireIfDue, hT, applyAll]

/-- Witness for C4: three rapid mutate calls (times 0, 100, 200, window
500 ms) on an integer collection produce the single backend write `[8]`,
the value of the third call, when the timer fires at time 700. -/
theorem debounce_coalesces_burst_witness :
    (fireIfDue 700 (runBurst 500
        [(0, fun v => v + 1), (100, fun v => v * 2), (200, fun v => v + 6)]
        { value := (0 : Int), timer := none, writes := [] })).writes = [8] ∧
    (fireIfDue 700 (runBurst 500
        [(0, fun v => v + 1), (100, fun v => v * 2), (200, fun v => v + 6)]
        { value := (0 : Int), timer := none, writes := [] })).timer = none := by
  have h := debounce_coalesces_burst 500 (by decide)
    (0, fun v : Int => v + 1) [(100, fun v => v * 2), (200, fun v => v + 6)]
    (by decide) { value := (0 : Int), timer := none, writes := [] } rfl 700 (by decide)
  exact ⟨h.1, h.2.2⟩

/-! ## The remote-notification callback of `useFirebaseState`
(source lines 31-46)

On every snapshot delivered by the subscription the callback reads
`data = snapshot.val()` (`none` models a null/absent value): a non-null
value is adopted into the local cache; a null value triggers seeding with
the default only on the very first notification; afterwards
`isInitialLoad` is cleared and `loading` is set to false.  The cached value
is an `Option` because the backend can also signal "no value". -/

/-- Local state of the hook around its subscription callback: the cached
value, the `loading` flag, the `isInitialLoad` ref, and the backend writes
issued by seeding. -/
structure FBState (α : Type) where
  value : Option α
  loading : Bool
  isInitialLoad : Bool
  seeds : List (Option α)
deriving DecidableEq, Repr

/-- The `onValue` callback body (source lines 32-42). -/
def handleSnapshot (defaultValue : Option α) (data : Option α) (s : FBState α) : FBState α :=
  let s :=
    match data with
    | some d => { s with value := some d }
    | none =>
        if s.isInitialLoad then { s with seeds := s.seeds ++ [defaultValue] } else s
  { s with isInitialLoad := false, loading := false }

/-- Counterexample to C5 as stated: after the first notification has been
processed (`isInitialLoad = false`), a notification whose snapshot is
null/absent does **not** overwrite the local cached value with the
delivered snapshot — the cache keeps its previous value.  Concretely, with
cached value `some 1`, a null notification leaves the cache at `some 1`,
not at the delivered `none`. -/
theorem null_notification_not_adopted :
    ¬ (∀ (s : FBState Int) (data : Option Int), s.isInitialLoad = false →
        (handleSnapshot none data s).value = data) := by
  intro hclaim
  have h := hclaim { value := some 1, loading := false, isInitialLoad := false, seeds := [] }
    none rfl
  simp [handleSnapshot] at h

/-- C5, amended: after the first notification has been processed, every
subsequent notification carrying a **non-null** snapshot overwrites the
local cached value with the delivered snapshot, issues no seeding write,
and leaves the collection in the `Synced` state (`loading = false`); a
subsequent null notification leaves the cached value unchanged while the
collection likewise stays `Synced`. -/
theorem subsequent_notification_overwrites (defaultValue : Option α)
    (s : FBState α) (hpost : s.isInitialLoad = false) :
    (∀ d : α,
      (handleSnapshot defaultValue (some d) s).value = some d ∧
      (handleSnapshot defaultValue (some d) s).loading = false ∧
      (handleSnapshot defaultValue (some d) s).isInitialLoad = false ∧
      (handleSnapshot defaultValue (some d) s).seeds = s.seeds) ∧
    ((handleSnapshot defaultValue none s).value = s.value ∧
      (handleSnapshot defaultValue none s).loading = false ∧
      (handleSnapshot defaultValue none s).seeds = s.seeds) := by
  refine ⟨fun d => ?_, ?_⟩ <;> simp [handleSnapshot, hpost]

/-- Witness for the amended C5 at a concrete post-initial state: a
notification carrying 7 replaces the cached 1 and keeps the collection
synced. -/
theorem subsequent_notification_overwrites_witness :
    (handleSnapshot (none : Option Int) (some 7)
        { value := some 1, loading := false, isInitialLoad := false, seeds := [] }).value
      = some 7 ∧
    (handleSnapshot (none : Option Int) (some 7)
        { value := some 1, loading := false, isInitialLoad := false, seeds := [] }).loading
      = false := by
  have h := subsequent_notification_overwrites (none : Option Int)
    { value := some 1, loading := false, isInitialLoad := false, seeds := [] } rfl
  exact ⟨(h.1 7).1, (h.1 7).2.1⟩

/-! ## Mutation boundary of the hedge ledger (source lines 328-378) -/

/-- Longest leading run of decimal digits, accumulated left to right;
`none` when no digit has been read (JS `NaN`). -/
def parseDigits : List Char → Option Nat → Option Nat
  | [], acc => acc
  | c :: cs, acc =>
      if c.isDigit then parseDigits cs (some (acc.getD 0 * 10 + (c.toNat - 48)))
      else acc

/-- JS `parseInt` on the decimal inputs of the numeric form fields: skip
leading whitespace, honour an optional sign, then read the longest digit
prefix; no digit at all yields `none` (JS `NaN`).  The `0x` hexadecimal
branch of `parseInt` is not modelled, the quantity inputs being decimal. -/
def parseIntJS (s : String) : Option Int :=
  let cs := s.toList.dropWhile (fun c => c == ' ' || c == '\t' || c == '\n' || c == '\r')
  match cs with
  | '-' :: rest => (parseDigits rest none).map (fun n => -(n : Int))
  | '+' :: rest => (parseDigits rest none).map (fun n => (n : Int))
  | _ => (parseDigits cs none).map (fun n => (n : Int))

/-- The hedge form state (`hedgeForm`): quantity and price are the raw
input-field strings. -/
structure HedgeForm where
  entity : Entity
  cropYear : String
  contractType : String
  contractMonth : String
  quantity : String
  direction : Direction
  price : String
  dateEntered : String
  notes : String
deriving DecidableEq, Repr

/-- The slice of application state touched by the hedge mutations: the
`hedges` object, the audit log and the hedge-modal flag. -/
structure AppState where
  hedgesObj : Obj String HedgeRecord
  auditLog : List AuditEntry
  hedgeModalOpen : Bool
deriving DecidableEq, Repr

/-- The entry built by `saveHedge` from the form and the parsed quantity:
`{ ...formData, quantity: qty, price: hedgeForm.price ? parseFloat(...) : null }`
(the empty price string is falsy and becomes `null`; float parsing itself is
abstracted, see `HedgeRecord.price`). -/
def mkEntry (form : HedgeForm) (qty : Int) : HedgeRecord :=
  { entity := form.entity, cropYear := form.cropYear,
    contractType := form.contractType, contractMonth := form.contractMonth,
    quantity := qty, direction := form.direction,
    price := if form.price = "" then none else some form.price,
    dateEntered := form.dateEntered, notes := form.notes }

/-- `fmtFull` (source line 44): `toLocaleString` of a number; the
locale-dependent digit grouping is abstracted to the plain decimal digits. -/
def fmtFull (n : Int) : String := toString n

/-- The direction's display string. -/
def Direction.name : Direction → String
  | .long => "Long"
  | .short => "Short"

/-- The human-readable summary used for the hedge audit entries:
direction, quantity, contract type, contract month, crop year. -/
def hedgeSummary (r : HedgeRecord) : String :=
  r.direction.name ++ " " ++ fmtFull r.quantity ++ " bu " ++ r.contractType
    ++ " " ++ r.contractMonth ++ " " ++ r.cropYear

/-- `saveHedge` (source lines 344-359): parse the quantity, bail out when it
is `NaN` or `≤ 0` (`if (!qty || qty <= 0) return`), otherwise store the
entry under the edited id (update) or a fresh id (create), prepend the
matching audit entry, and close the modal.  The generated ids and the
timestamp are supplied by the caller. -/
def saveHedge (form : HedgeForm) (editingHedge : Option String)
    (newId auditId ts : String) (s : AppState) : AppState :=
  match parseIntJS form.quantity with
  | none => s
  | some qty =>
      if qty ≤ 0 then s
      else
        let entry := mkEntry form qty
        match editingHedge with
        | some editId =>
            { s with hedgesObj := setKey s.hedgesObj editId entry,
                     auditLog := createAuditEntry auditId ts "Hedge Modified"
                       entry.entity.name (hedgeSummary entry) :: s.auditLog,
                     hedgeModalOpen := false }
        | none =>
            { s with hedgesObj := setKey s.hedgesObj newId entry,
                     auditLog := createAuditEntry auditId ts "Hedge Created"
                       entry.entity.name (hedgeSummary entry) :: s.auditLog,
                     hedgeModalOpen := false }

/-- C6: a hedge save whose parsed quantity is `NaN` or `≤ 0` is a silent
no-op — the whole state (hedges, audit log, modal flag) is returned
unchanged — and, in general, every record found in the hedges object after
a save either was already there or has a strictly positive quantity. -/
theorem saveHedge_rejects_nonpositive :
    (∀ (form : HedgeForm) (editing : Option String) (newId auditId ts : String)
        (s : AppState),
      (∀ q : Int, parseIntJS form.quantity = some q → q ≤ 0) →
      saveHedge form editing newId auditId ts s = s) ∧
    (∀ (form : HedgeForm) (editing : Option String) (newId auditId ts : String)
        (s : AppState) (k : String) (r : HedgeRecord),
      getKey? (saveHedge form editing newId auditId ts s).hedgesObj k = some r →
      getKey? s.hedgesObj k = some r ∨ 0 < r.quantity) := by
  constructor
  · intro form editing newId auditId ts s h
    unfold saveHedge
    cases hq : parseIntJS form.quantity with
    | none => rfl
    | some q => simp [h q hq]
  · intro form editing newId auditId ts s k r hfound
    unfold saveHedge at hfound
    cases hq : parseIntJS form.quantity with
    | none => rw [hq] at hfound; exact Or.inl hfound
    | some q =>
        rw [hq] at hfound
        by_cases hle : q ≤ 0
        · simp only [hle, if_true] at hfound
          exact Or.inl hfound
        · simp only [hle, if_false] at hfound
          have hpos : 0 < q := lt_of_not_le hle
          cases editing with
          | some editId =>
              simp only at hfound
              by_cases hk : k = editId
              · subst hk
                rw [getKey?_setKey_self] at hfound
                right
                cases hfound
                exact hpos
              · rw [getKey?_setKey_ne _ _ _ _ hk] at hfound
                exact Or.inl hfound
          | none =>
              simp only at hfound
              by_cases hk : k = newId
              · subst hk
                rw [getKey?_setKey_self] at hfound
                right
                cases hfound
                exact hpos
              · rw [getKey?_setKey_ne _ _ _ _ hk] at hfound
                exact Or.inl hfound

/-- Witness for C6 at concrete inputs: a save with quantity "-5" on a
one-record store changes nothing, and the record found under "id1" after a
successful update with quantity "250000" satisfies the persisted-quantity
disjunction. -/
theorem saveHedge_rejects_nonpositive_witness :
    saveHedge
        { entity := Entity.feedlot, cropYear := "2025", contractType := "Futures",
          contractMonth := "May", quantity := "-5", direction := Direction.long,
          price := "", dateEntered := "2025-01-20", notes := "" }
        none "id9" "a9" "t9"
        { hedgesObj := [("id1",
            { entity := Entity.farming, cropYear := "2025", contractType := "Futures",
              contractMonth := "Dec", quantity := 600000, direction := Direction.short,
              price := none, dateEntered := "2025-01-10", notes := "" })],
          auditLog := [], hedgeModalOpen := true } =
      { hedgesObj := [("id1",
          { entity := Entity.farming, cropYear := "2025", contractType := "Futures",
            contractMonth := "Dec", quantity := 600000, direction := Direction.short,
            price := none, dateEntered := "2025-01-10", notes := "" })],
        auditLog := [], hedgeModalOpen := true } ∧
    (getKey? [("id1",
        ({ entity := Entity.farming, cropYear := "2025", contractType := "Futures",
           contractMonth := "Dec", quantity := 600000, direction := Direction.short,
           price := none, dateEntered := "2025-01-10", notes := "" } : HedgeRecord))] "id1"
      = some { entity := Entity.feedlot, cropYear := "2025", contractType := "Futures",
               contractMonth := "May", quantity := 250000, direction := Direction.long,
               price := none, dateEntered := "2025-01-20", notes := "" }
      ∨ (0 : Int) <
        ({ entity := Entity.feedlot, cropYear := "2025", contractType := "Futures",
           contractMonth := "May", quantity := 250000, direction := Direction.long,
           price := none, dateEntered := "2025-01-20", notes := "" } : HedgeRecord).quantity) := by
  constructor
  · exact saveHedge_rejects_nonpositive.1
      { entity := Entity.feedlot, cropYear := "2025", contractType := "Futures",
        contractMonth := "May", quantity := "-5", direction := Direction.long,
        price := "", dateEntered := "2025-01-20", notes := "" }
      none "id9" "a9" "t9"
      { hedgesObj := [("id1",
          { entity := Entity.farming, cropYear := "2025", contractType := "Futures",
            contractMonth := "Dec", quantity := 600000, direction := Direction.short,
            price := none, dateEntered := "2025-01-10", notes := "" })],
        auditLog := [], hedgeModalOpen := true }
      (by
        intro q hq
        have h2 : parseIntJS ("-5" : String) = some q := hq
        have h3 : parseIntJS ("-5" : String) = some (-5 : Int) := by decide
        rw [h3] at h2
        injection h2 with h4
        subst h4
        decide)
  · exact saveHedge_rejects_nonpositive.2
      { entity := Entity.feedlot, cropYear := "2025", contractType := "Futures",
        contractMonth := "May", quantity := "250000", direction := Direction.long,
        price := "", dateEntered := "2025-01-20", notes := "" }
      (some "id1") "id9" "a9" "t9"
      { hedgesObj := [("id1",
          { entity := Entity.farming, cropYear := "2025", contractType := "Futures",
            contractMonth := "Dec", quantity := 600000, direction := Direction.short,
            price := none, dateEntered := "2025-01-10", notes := "" })],
        auditLog := [], hedgeModalOpen := true }
      "id1"
      { entity := Entity.feedlot, cropYear := "2025", contractType := "Futures",
        contractMonth := "May", quantity := 250000, direction := Direction.long,
        price := none, dateEntered := "2025-01-20", notes := "" }
      (by decide)

/-- `deleteHedge(h)` (source lines 361-369): the `confirm` dialog outcome is
supplied by the caller; on confirmation the record's key is deleted from the
hedges object (`delete next[h.id]` on a copy) and a "Hedge Deleted" audit
entry carrying the pre-deletion record's summary is prepended. -/
def deleteHedge (confirmed : Bool) (hid : String) (r : HedgeRecord)
    (auditId ts : String) (s : AppState) : AppState :=
  if !confirmed then s
  else
    { s with hedgesObj := delKey s.hedgesObj hid,
             auditLog := createAuditEntry auditId ts "Hedge Deleted" r.entity.name
               (hedgeSummary r) :: s.auditLog }

/-- C7: for an id present in the hedge collection, a confirmed delete
removes exactly that key — its lookup becomes `none` — and the lookup of
every other key is unchanged. -/
theorem deleteHedge_removes_exactly (s : AppState) (hid : String)
    (r : HedgeRecord) (auditId ts : String)
    (hmem : (getKey? s.hedgesObj hid).isSome = true) :
    getKey? (deleteHedge true hid r auditId ts s).hedgesObj hid = none ∧
    ∀ k : String, k ≠ hid →
      getKey? (deleteHedge true hid r auditId ts s).hedgesObj k
        = getKey? s.hedgesObj k := by
  refine ⟨?_, fun k hk => ?_⟩
  · simp only [deleteHedge, Bool.not_true, Bool.false_eq_true, if_false]
    exact getKey?_delKey_self s.hedgesObj hid
  · simp only [deleteHedge, Bool.not_true, Bool.false_eq_true, if_false]
    exact getKey?_delKey_ne s.hedgesObj hid k hk

/-- Witness for C7 on a concrete two-record store: deleting "id1" empties
that key and leaves "id2" with its record. -/
theorem deleteHedge_removes_exactly_witness :
    getKey? (deleteHedge true "id1"
        { entity := Entity.farming, cropYear := "2025", contractType := "Futures",
          contractMonth := "Dec", quantity := 600000, direction := Direction.short,
          price := none, dateEntered := "2025-01-10", notes := "" }
        "a1" "t1"
        { hedgesObj := [
            ("id1", { entity := Entity.farming, cropYear := "2025", contractType := "Futures",
                      contractMonth := "Dec", quantity := 600000, direction := Direction.short,
                      price := none, dateEntered := "2025-01-10", notes := "" }),
            ("id2", { entity := Entity.feedlot, cropYear := "2025", contractType := "Futures",
                      contractMonth := "May", quantity := 400000, direction := Direction.long,
                      price := none, dateEntered := "2025-01-20", notes := "" })],
          auditLog := [], hedgeModalOpen := false }).hedgesObj "id1" = none ∧
    getKey? (deleteHedge true "id1"
        { entity := Entity.farming, cropYear := "2025", contractType := "Futures",
          contractMonth := "Dec", quantity := 600000, direction := Direction.short,
          price := none, dateEntered := "2025-01-10", notes := "" }
        "a1" "t1"
        { hedgesObj := [
            ("id1", { entity := Entity.farming, cropYear := "2025", contractType := "Futures",
                      contractMonth := "Dec", quantity := 600000, direction := Direction.short,
                      price := none, dateEntered := "2025-01-10", notes := "" }),
            ("id2", { entity := Entity.feedlot, cropYear := "2025", contractType := "Futures",
                      contractMonth := "May", quantity := 400000, direction := Direction.long,
                      price := none, dateEntered := "2025-01-20", notes := "" })],
          auditLog := [], hedgeModalOpen := false }).hedgesObj "id2"
      = some { entity := Entity.feedlot, cropYear := "2025", contractType := "Futures",
               contractMonth := "May", quantity := 400000, direction := Direction.long,
               price := none, dateEntered := "2025-01-20", notes := "" } := by
  have h := deleteHedge_removes_exactly
    { hedgesObj := [
        ("id1", { entity := Entity.farming, cropYear := "2025", contractType := "Futures",
                  contractMonth := "Dec", quantity := 600000, direction := Direction.short,
                  price := none, dateEntered := "2025-01-10", notes := "" }),
        ("id2", { entity := Entity.feedlot, cropYear := "2025", contractType := "Futures",
                  contractMonth := "May", quantity := 400000, direction := Direction.long,
                  price := none, dateEntered := "2025-01-20", notes := "" })],
      auditLog := [], hedgeModalOpen := false }
    "id1"
    { entity := Entity.farming, cropYear := "2025", contractType := "Futures",
      contractMonth := "Dec", quantity := 600000, direction := Direction.short,
      price := none, dateEntered := "2025-01-10", notes := "" }
    "a1" "t1" (by decide)
  refine ⟨h.1, ?_⟩
  rw [h.2 "id2" (by decide)]
  decide

/-! ## Crop-year management (source lines 254-269) -/

/-- The slice of state touched by `removeCropYear`: the crop-year list, the
selected year (an `Option`, since `cropYears.find(...)` can in principle be
`undefined`) and the audit log. -/
structure YearState where
  cropYears : List String
  selectedYear : Option String
  auditLog : List AuditEntry
deriving DecidableEq, Repr

/-- `removeCropYear(y)` (source lines 263-269): refuse when at most one year
remains, otherwise (after the `confirm` dialog, whose outcome is supplied)
filter the year out of the list, reassign the selection to the first
remaining year of the old list when the removed year was selected, and
prepend a "Year Removed" audit entry. -/
def removeCropYear (confirmed : Bool) (y : String) (auditId ts : String)
    (s : YearState) : YearState :=
  if s.cropYears.length ≤ 1 then s
  else if !confirmed then s
  else
    { cropYears := s.cropYears.filter (fun yr => decide (yr ≠ y)),
      selectedYear :=
        if s.selectedYear = some y then s.cropYears.find? (fun yr => decide (yr ≠ y))
        else s.selectedYear,
      auditLog := createAuditEntry auditId ts "Year Removed" "System"
        ("Crop year " ++ y ++ " removed") :: s.auditLog }

/-- Lexicographic comparison of character lists by code point. -/
def lexLe : List Char → List Char → Bool
  | [], _ => true
  | _ :: _, [] => false
  | c :: cs, d :: ds =>
      if c.val < d.val then true
      else if d.val < c.val then false
      else lexLe cs ds

/-- The ascending string order maintained on the crop-year list by
`addCropYear`'s `sort()` (JS default string comparison): lexicographic by
code unit, which on 4-digit year strings is the numeric order. -/
def strLe (a b : String) : Bool := lexLe a.toList b.toList

theorem find?_eq_head?_filter (p : String → Bool) (l : List String) :
    l.find? p = (l.filter p).head? := by
  induction l with
  | nil => rfl
  | cons a t ih =>
      rw [List.find?_cons, List.filter_cons]
      cases h : p a with
      | true => rfl
      | false => exact ih

theorem filter_ne_nonempty_of_nodup (l : List String) (y : String)
    (hlen : 1 < l.length) (hnd : l.Nodup) :
    l.filter (fun yr => decide (yr ≠ y)) ≠ [] := by
  intro hnil
  rw [List.filter_eq_nil_iff] at hnil
  cases l with
  | nil => simp at hlen
  | cons a l' =>
      cases l' with
      | nil => simp at hlen
      | cons b t =>
          have ha : a = y := by simpa using hnil a (by simp)
          have hb : b = y := by simpa using hnil b (by simp)
          have hab : a ∉ b :: t := (List.nodup_cons.mp hnd).1
          exact hab (by simp [ha.trans hb.symm])

/-- C8: removing a crop year when at most one remains is rejected (the
state is unchanged, so in particular the set stays non-empty); on a
duplicate-free non-empty set the result of any removal is never empty; and
when more than one year remains and the removed year is the currently
selected one, the selection is deterministically reassigned to the first
remaining year of the ascending-sorted set. -/
theorem removeCropYear_invariants :
    (∀ (confirmed : Bool) (y auditId ts : String) (s : YearState),
      s.cropYears.length ≤ 1 → removeCropYear confirmed y auditId ts s = s) ∧
    (∀ (confirmed : Bool) (y auditId ts : String) (s : YearState),
      s.cropYears ≠ [] → s.cropYears.Nodup →
      (removeCropYear confirmed y auditId ts s).cropYears ≠ []) ∧
    (∀ (y auditId ts : String) (s : YearState),
      1 < s.cropYears.length → s.cropYears.Nodup →
      s.cropYears.Sorted (fun a b => strLe a b = true) → s.selectedYear = some y →
      (removeCropYear true y auditId ts s).cropYears
          = s.cropYears.filter (fun yr => decide (yr ≠ y)) ∧
      (removeCropYear true y auditId ts s).cropYears.Sorted (fun a b => strLe a b = true) ∧
      (removeCropYear true y auditId ts s).cropYears ≠ [] ∧
      (removeCropYear true y auditId ts s).selectedYear
          = (removeCropYear true y auditId ts s).cropYears.head?) := by
  refine ⟨?_, ?_, ?_⟩
  · intro confirmed y auditId ts s hlen
    simp [removeCropYear, hlen]
  · intro confirmed y auditId ts s hne hnd
    by_cases hlen : s.cropYears.length ≤ 1
    · simpa [removeCropYear, hlen] using hne
    · have hlt : 1 < s.cropYears.length := Nat.lt_of_not_le hlen
      cases confirmed with
      | false => simpa [removeCropYear, hlen] using hne
      | true =>
          simp only [removeCropYear, hlen, if_false, Bool.not_true,
            Bool.false_eq_true]
          exact filter_ne_nonempty_of_nodup s.cropYears y hlt hnd
  · intro y auditId ts s hlt hnd hsort hsel
    have hlen : ¬ s.cropYears.length ≤ 1 := Nat.not_le.mpr hlt
    refine ⟨?_, ?_, ?_, ?_⟩
    · simp [removeCropYear, hlen]
    · simp only [removeCropYear, hlen, if_false, Bool.not_true, Bool.false_eq_true]
      exact hsort.filter _
    · simp only [removeCropYear, hlen, if_false, Bool.not_true, Bool.false_eq_true]
      exact filter_ne_nonempty_of_nodup s.cropYears y hlt hnd
    · simp only [removeCropYear, hlen, if_false, Bool.not_true, Bool.false_eq_true,
        hsel, if_true]
      exact find?_eq_head?_filter _ s.cropYears

/-- Witness for C8 on concrete states: a removal from the singleton set
["2024"] is a no-op; removing the selected "2025" from the sorted set
["2024", "2025", "2026"] leaves a non-empty set and moves the selection to
"2024", the first remaining year. -/
theorem removeCropYear_invariants_witness :
    removeCropYear true "2024" "a0" "t0"
        { cropYears := ["2024"], selectedYear := some "2024", auditLog := [] }
      = { cropYears := ["2024"], selectedYear := some "2024", auditLog := [] } ∧
    (removeCropYear true "2025" "a1" "t1"
        { cropYears := ["2024", "2025", "2026"], selectedYear := some "2025",
          auditLog := [] }).cropYears ≠ [] ∧
    (removeCropYear true "2025" "a1" "t1"
        { cropYears := ["2024", "2025", "2026"], selectedYear := some "2025",
          auditLog := [] }).selectedYear = some "2024" := by
  have h1 := removeCropYear_invariants.1 true "2024" "a0" "t0"
    { cropYears := ["2024"], selectedYear := some "2024", auditLog := [] }
    (by decide)
  have h2 := removeCropYear_invariants.2.1 true "2025" "a1" "t1"
    { cropYears := ["2024", "2025", "2026"], selectedYear := some "2025",
      auditLog := [] } (by decide) (by decide)
  have h3 := removeCropYear_invariants.2.2 "2025" "a1" "t1"
    { cropYears := ["2024", "2025", "2026"], selectedYear := some "2025",
      auditLog := [] } (by decide) (by decide) (by decide) rfl
  refine ⟨h1, h2, ?_⟩
  rw [h3.2.2.2, h3.1]
  decide

/-! ## Consumption updates (source lines 372-378) -/

/-- `updateConsumption(entity, year, val)`: stores `parseInt(val) || 0`
into the nested consumption object through spread updates
`{...prev, [entity]: {...(prev?.[entity] || {}), [year]: v}}`. -/
def updateConsumption (entity : Entity) (year val : String)
    (consumption : Consumption) : Consumption :=
  let v : Int := (parseIntJS val).getD 0
  setKey consumption entity
    (setKey ((getKey? consumption entity).getD []) year v)

/-- Counterexample to C9 as stated: the input string "-5" parses to the
negative integer -5, which `parseInt(val) || 0` passes through unchanged (a
negative number is truthy), so a negative — out-of-range — value is
persisted in the consumption mapping. -/
theorem updateConsumption_persists_negative :
    lookup2D (updateConsumption Entity.hogFinishing "2025" "-5" [])
        Entity.hogFinishing "2025" = -5 ∧ (-5 : Int) < 0 := by
  constructor
  · decide
  · decide

/-- C9, amended: the value stored by a consumption update is always the
integer `parseInt(val) || 0` — in particular `0` for empty or non-numeric
input — but a negative numeric input is persisted as that negative integer;
every other entity's mapping and every other year of the same entity are
unchanged. -/
theorem updateConsumption_stores_parsed (e : Entity) (year val : String)
    (c : Consumption) :
    lookup2D (updateConsumption e year val c) e year = (parseIntJS val).getD 0 ∧
    (parseIntJS val = none → lookup2D (updateConsumption e year val c) e year = 0) ∧
    (∀ e' : Entity, e' ≠ e →
      getKey? (updateConsumption e year val c) e' = getKey? c e') ∧
    (∀ y' : String, y' ≠ year →
      lookup2D (updateConsumption e year val c) e y' = lookup2D c e y') := by
  have hsetE : getKey? (updateConsumption e year val c) e
      = some (setKey ((getKey? c e).getD []) year ((parseIntJS val).getD 0)) := by
    unfold updateConsumption
    exact getKey?_setKey_self _ _ _
  refine ⟨?_, ?_, ?_, ?_⟩
  · unfold lookup2D
    rw [hsetE]
    simp [getKey?_setKey_self]
  · intro hnone
    unfold lookup2D
    rw [hsetE]
    simp [getKey?_setKey_self, hnone]
  · intro e' hne
    unfold updateConsumption
    exact getKey?_setKey_ne _ _ _ _ hne
  · intro y' hne
    unfold lookup2D
    rw [hsetE]
    simp only [Option.getD_some, Option.bind_eq_bind, Option.some_bind]
    rw [getKey?_setKey_ne _ _ _ _ hne]
    cases hc : getKey? c e with
    | none => simp [getKey?]
    | some inner => simp

/-- Witness for the amended C9 at concrete inputs: the empty input stores
0 for (Feedlot, 2025), while Hog Finishing's mapping and Feedlot's other
years keep their values. -/
theorem updateConsumption_stores_parsed_witness :
    lookup2D (updateConsumption Entity.feedlot "2025" ""
        [(Entity.hogFinishing, [("2025", 2600000)]),
         (Entity.feedlot, [("2024", 1800000)])]) Entity.feedlot "2025" = 0 ∧
    getKey? (updateConsumption Entity.feedlot "2025" ""
        [(Entity.hogFinishing, [("2025", 2600000)]),
         (Entity.feedlot, [("2024", 1800000)])]) Entity.hogFinishing
      = some [("2025", 2600000)] ∧
    lookup2D (updateConsumption Entity.feedlot "2025" ""
        [(Entity.hogFinishing, [("2025", 2600000)]),
         (Entity.feedlot, [("2024", 1800000)])]) Entity.feedlot "2024" = 1800000 := by
  have h := updateConsumption_stores_parsed Entity.feedlot "2025" ""
    [(Entity.hogFinishing, [("2025", 2600000)]),
     (Entity.feedlot, [("2024", 1800000)])]
  refine ⟨h.2.1 (by decide), ?_, ?_⟩
  · rw [h.2.2.1 Entity.hogFinishing (by decide)]
    decide
  · rw [h.2.2.2 "2024" (by decide)]
    decide

/-! ## `hedgesObjToArray` (source lines 81-84) -/

/-- A JavaScript value, as the backend may deliver it for the `hedges`
path. -/
inductive JSVal where
  | null
  | undef
  | num (n : Int)
  | str (s : String)
  | boolean (b : Bool)
  | obj (fields : List (String × JSVal))
deriving Repr

/-- The own enumerable entries contributed by `...data` in an object
literal: an object contributes its fields in order, a string its indexed
single-character strings, and any other value contributes nothing. -/
def spreadFields : JSVal → List (String × JSVal)
  | .obj fields => fields
  | .str s => s.toList.enum.map (fun p => (toString p.1, JSVal.str (toString p.2)))
  | _ => []

/-- The element `{ id, ...data }` built for the entry at key `id` (source
line 83): starts from the `id` property, then assigns each spread field of
the stored value in order, overriding in place. -/
def mkElement (id : String) (data : JSVal) : Obj String JSVal :=
  (spreadFields data).foldl (fun o kv => setKey o kv.1 kv.2) [("id", JSVal.str id)]

/-- `hedgesObjToArray(obj)`: `null`, `undefined` and every non-object input
fail the `!obj || typeof obj !== "object"` guard and give `[]`; an object
maps each of its entries to `{ id, ...data }`. -/
def hedgesObjToArray : JSVal → List (Obj String JSVal)
  | .obj fields => fields.map (fun p => mkElement p.1 p.2)
  | _ => []

theorem foldl_setKey_not_mem (fields : List (String × JSVal)) (o : Obj String JSVal)
    (k : String) (hk : k ∉ fields.map Prod.fst) :
    getKey? (fields.foldl (fun o kv => setKey o kv.1 kv.2) o) k = getKey? o k := by
  induction fields generalizing o with
  | nil => rfl
  | cons kv rest ih =>
      simp only [List.map_cons, List.mem_cons] at hk
      push_neg at hk
      rw [List.foldl_cons, ih _ hk.2, getKey?_setKey_ne _ _ _ _ hk.1]

theorem foldl_setKey_mem_nodup (fields : List (String × JSVal)) (o : Obj String JSVal)
    (k : String) (v : JSVal) (hnd : (fields.map Prod.fst).Nodup)
    (hmem : (k, v) ∈ fields) :
    getKey? (fields.foldl (fun o kv => setKey o kv.1 kv.2) o) k = some v := by
  induction fields generalizing o with
  | nil => simp at hmem
  | cons kv rest ih =>
      simp only [List.map_cons, List.nodup_cons] at hnd
      rw [List.foldl_cons]
      rcases List.mem_cons.mp hmem with heq | hrest
      · subst heq
        rw [foldl_setKey_not_mem rest _ k hnd.1]
        exact getKey?_setKey_self _ _ _
      · exact ih _ hnd.2 hrest

/-- Counterexample to C10 as stated: a stored record carrying its own `id`
field overrides the key in `{ id, ...data }`, so the produced element does
not carry the object key as its id field. -/
theorem hedgesObjToArray_id_overridden :
    hedgesObjToArray
        (JSVal.obj [("k1", JSVal.obj [("id", JSVal.str "other"), ("x", JSVal.num 1)])])
      = [[("id", JSVal.str "other"), ("x", JSVal.num 1)]] ∧
    getKey? (mkElement "k1" (JSVal.obj [("id", JSVal.str "other"), ("x", JSVal.num 1)]))
        "id" ≠ some (JSVal.str "k1") := by
  constructor
  · rfl
  · intro h
    have h2 : JSVal.str "other" = JSVal.str "k1" := Option.some.inj h
    have h3 : ("other" : String) = "k1" := JSVal.str.inj h2
    exact absurd h3 (by decide)

/-- C10, amended: the conversion is total — null, undefined and non-object
inputs give the empty array — and an object input gives exactly one element
per key, each element built as `{ id, ...data }`: the stored record's
fields are all carried over, and the element's id field is the object key
unless the record itself carries an `id` field, which then takes
precedence. -/
theorem hedgesObjToArray_total :
    (∀ v : JSVal, (∀ fields, v ≠ JSVal.obj fields) → hedgesObjToArray v = []) ∧
    (∀ fields : List (String × JSVal),
      (hedgesObjToArray (JSVal.obj fields)).length = fields.length ∧
      hedgesObjToArray (JSVal.obj fields) = fields.map (fun p => mkElement p.1 p.2)) ∧
    (∀ (id : String) (data : JSVal),
      ((spreadFields data).map Prod.fst).Nodup →
      ("id" ∉ (spreadFields data).map Prod.fst →
        getKey? (mkElement id data) "id" = some (JSVal.str id)) ∧
      (∀ k v, (k, v) ∈ spreadFields data → getKey? (mkElement id data) k = some v)) := by
  refine ⟨?_, ?_, ?_⟩
  · intro v hne
    cases v with
    | obj fields => exact absurd rfl (hne fields)
    | null => rfl
    | undef => rfl
    | num n => rfl
    | str s => rfl
    | boolean b => rfl
  · intro fields
    exact ⟨by simp [hedgesObjToArray], rfl⟩
  · intro id data hnd
    constructor
    · intro hid
      unfold mkElement
      rw [foldl_setKey_not_mem _ _ _ hid]
      rfl
    · intro k v hmem
      unfold mkElement
      exact foldl_setKey_mem_nodup _ _ _ _ hnd hmem

/-- Witness for the amended C10 on a concrete hedge object without an own
`id` field: the element carries the key "k1" as id and the record's fields. -/
theorem hedgesObjToArray_total_witness :
    hedgesObjToArray (JSVal.num 7) = [] ∧
    getKey? (mkElement "k1" (JSVal.obj [("entity", JSVal.str "Farming")])) "id"
      = some (JSVal.str "k1") ∧
    getKey? (mkElement "k1" (JSVal.obj [("entity", JSVal.str "Farming")])) "entity"
      = some (JSVal.str "Farming") := by
  have h := hedgesObjToArray_total
  refine ⟨h.1 (JSVal.num 7) (fun fields hc => JSVal.noConfusion hc), ?_, ?_⟩
  · exact (h.2.2 "k1" (JSVal.obj [("entity", JSVal.str "Farming")]) (by decide)).1
      (by decide)
  · exact (h.2.2 "k1" (JSVal.obj [("entity", JSVal.str "Farming")]) (by decide)).2
      "entity" (JSVal.str "Farming") (List.mem_singleton.mpr rfl)

end Hedging
